import Mathlib

/-!
Verification of the vector-store subsystem of the `dictate` repository
(`src/dictate/vector_store.py`, class `VectorStoreManager`).

Modelling conventions:
* Text is a `List Char`; Python `str.strip()` / `str.rfind` are embedded
  directly below.
* The `while` loop of `chunk_text` is embedded with an explicit fuel
  argument; a result of `none` means the loop has not finished within the
  given fuel (the loop has no termination guarantee, see the theorems).
* The ChromaDB collection is the external `VectorCollection` capability:
  a persistent map from chunk id to (document, metadata, optional vector).
  It is modelled as an association list with the upsert / get /
  filtered-get / delete semantics the code relies on.
* `hashlib.md5(...).hexdigest()` and `datetime.now().isoformat()` are
  external deterministic capabilities; they are threaded through the
  environment as an arbitrary function `md5` and a string `now`.
* Fallible capability calls (file read, embedding provider, store calls)
  are modelled by explicit outcomes in the environment; a Python
  exception raised by a capability corresponds to the `error` / raise
  outcome, and the surrounding `try/except` blocks of the source are
  embedded as the explicit fallback branches.
* Floating point distances and similarities are modelled over `ℚ`.
-/

set_option maxRecDepth 100000
set_option maxHeartbeats 1000000

namespace Dictate

/-- The ASCII whitespace characters removed by Python `str.strip()`. -/
def pyIsSpace (c : Char) : Bool :=
  c == ' ' || c == '\t' || c == '\n' || c == '\r' || c == '\x0b' || c == '\x0c'

/-- Python `s.strip()`: remove leading and trailing whitespace. -/
def pyStrip (cs : List Char) : List Char :=
  List.rdropWhile pyIsSpace (List.dropWhile pyIsSpace cs)

/-- Helper for `rfindSpace`: scan left to right remembering the last
index holding a space character. -/
def rfindSpaceAux : List Char → Nat → Option Nat → Option Nat
  | [], _, acc => acc
  | c :: rest, i, acc =>
      rfindSpaceAux rest (i + 1) (if c == ' ' then some i else acc)

/-- Python `text.rfind(' ', start, stop)` for `stop ≤ len(text)`: the
largest index in `[start, stop)` holding a space, `none` when there is
none (Python returns `-1` there). -/
def rfindSpace (cs : List Char) (start stop : Nat) : Option Nat :=
  rfindSpaceAux ((cs.drop start).take (stop - start)) start none

/-- One window's end position in `chunk_text`: tentatively
`start + chunk_size`; if that is still inside the text, snap back to the
last space strictly after `start` (word-boundary snapping), when any. -/
def chunkEnd (cs : List Char) (chunk_size start : Nat) : Nat :=
  if start + chunk_size < cs.length then
    match rfindSpace cs start (start + chunk_size) with
    | some last_space => if start < last_space then last_space else start + chunk_size
    | none => start + chunk_size
  else start + chunk_size

/-- The next window start in `chunk_text`: `end - overlap`, replaced by
`end` when `end - overlap ≤ 0` (the code's infinite-loop guard). -/
def chunkStartNext (e chunk_overlap : Nat) : Nat :=
  if e ≤ chunk_overlap then e else e - chunk_overlap

/-- The `while start < len(text)` loop of `VectorStoreManager.chunk_text`,
with explicit fuel. `none` means the loop did not exit within `fuel`
iterations. -/
def chunkLoop (cs : List Char) (chunk_size chunk_overlap : Nat) :
    Nat → Nat → List (List Char) → Option (List (List Char))
  | 0, _, _ => none
  | fuel + 1, start, chunks =>
    if start < cs.length then
      chunkLoop cs chunk_size chunk_overlap fuel
        (chunkStartNext (chunkEnd cs chunk_size start) chunk_overlap)
        (if pyStrip ((cs.drop start).take (chunkEnd cs chunk_size start - start)) = [] then
          chunks
        else
          chunks ++ [pyStrip ((cs.drop start).take (chunkEnd cs chunk_size start - start))])
    else some chunks

/-- `VectorStoreManager.chunk_text(text, chunk_size, chunk_overlap)`.
Returns `some chunks` when the loop exits within `fuel` iterations. -/
def chunk_text (fuel : Nat) (text : List Char) (chunk_size chunk_overlap : Nat) :
    Option (List (List Char)) :=
  if text.length ≤ chunk_size then some [text]
  else chunkLoop text chunk_size chunk_overlap fuel 0 []

/-- Per-chunk metadata stored with every chunk (source lines 147-155). -/
structure Metadata where
  source_file : String
  file_name : String
  chunk_index : Nat
  total_chunks : Nat
  content_hash : List Char
  added_date : String
  chunk_length : Nat
deriving DecidableEq

/-- One stored record of the vector collection: document text, metadata
and the optional precomputed embedding vector. -/
structure Entry where
  document : List Char
  metadata : Metadata
  embedding : Option (List ℚ)
deriving DecidableEq

/-- The persistent ChromaDB collection, modelled as an association list
from chunk id to entry. -/
abbrev Collection := List (String × Entry)

/-- Lookup of a single id in the collection. -/
def colLookup (c : Collection) (id : String) : Option Entry :=
  match c with
  | [] => none
  | (k, e) :: rest => if k = id then some e else colLookup rest id

/-- `collection.get(ids=l)`: the requested ids that are present,
together with their entries. -/
def colGet (c : Collection) (ids : List String) : List (String × Entry) :=
  ids.filterMap (fun i => (colLookup c i).map (fun e => (i, e)))

/-- Upsert of a single (id, entry) pair: overwrite in place when the id
exists, append otherwise. -/
def upsertOne (c : Collection) (id : String) (e : Entry) : Collection :=
  if (colLookup c id).isSome then
    c.map (fun pr => if pr.1 = id then (id, e) else pr)
  else c ++ [(id, e)]

/-- `collection.upsert(ids, documents, metadatas, ...)`: batch upsert. -/
def colUpsert (c : Collection) (items : List (String × Entry)) : Collection :=
  items.foldl (fun acc pr => upsertOne acc pr.1 pr.2) c

/-- `collection.get(where={"source_file": {"$eq": s}})`, projected to the
returned ids. -/
def colWhereSourceFile (c : Collection) (s : String) : List String :=
  (c.filter (fun pr => pr.2.metadata.source_file = s)).map (fun pr => pr.1)

/-- `collection.delete(ids=l)`. -/
def colDelete (c : Collection) (ids : List String) : Collection :=
  c.filter (fun pr => pr.1 ∉ ids)

/-- The content hashes of all chunks stored for a given source file. -/
def hashesFor (c : Collection) (s : String) : List (List Char) :=
  (c.filter (fun pr => pr.2.metadata.source_file = s)).map
    (fun pr => pr.2.metadata.content_hash)

/-- A `pathlib.Path` argument, as the code observes it: `str(path)`,
`path.name` and `str(path.absolute())`. -/
structure DPath where
  str : String
  name : String
  absStr : String
deriving DecidableEq

/-- The environment of one `add_transcript` call: outcomes of every
external capability the call consults. A `Bool` raise-flag set to `true`
means the corresponding store call raises an exception when reached. -/
structure AddEnv where
  fileExists : Bool
  readResult : Except Unit (List Char)
  transcriber : Option (List Char → Except Unit (List ℚ))
  getRaises : Bool
  upsertRaises : Bool
  now : String
  md5 : List Char → List Char

/-- The per-chunk embedding loop of `add_transcript` (source lines
132-140): call `get_embedding` once per chunk in order; on the first
raise the whole list degrades to `none`. The second component counts the
embedding-provider calls performed. -/
def embedLoop (embed : List Char → Except Unit (List ℚ)) :
    List (List Char) → Option (List (List ℚ)) × Nat
  | [] => (some [], 0)
  | ch :: rest =>
    match embed ch with
    | .error _ => (none, 1)
    | .ok v =>
      match embedLoop embed rest with
      | (none, n) => (none, n + 1)
      | (some vs, n) => (some (v :: vs), n + 1)

/-- The metadata dict built for chunk `i` (source lines 147-155). -/
def chunkMetadata (p : DPath) (content_hash : List Char) (now : String)
    (total : Nat) (i : Nat) (ck : List Char) : Metadata :=
  { source_file := p.str, file_name := p.name, chunk_index := i, total_chunks := total,
    content_hash := content_hash, added_date := now, chunk_length := ck.length }

/-- The batch handed to `collection.upsert`: ids `file_id_i`, documents,
metadatas, and the embeddings when a full list was produced. -/
def chunkEntries (p : DPath) (file_id : String) (content_hash : List Char) (now : String)
    (chunks : List (List Char)) (embeds : Option (List (List ℚ))) : List (String × Entry) :=
  chunks.enum.map (fun pr =>
    (file_id ++ "_" ++ toString pr.1,
     { document := pr.2,
       metadata := chunkMetadata p content_hash now chunks.length pr.1 pr.2,
       embedding := match embeds with
                    | some l => l[pr.1]?
                    | none => none }))

/-- The tail of `add_transcript` after the change-detection check:
chunking, embedding and the upsert (source lines 127-174). -/
def addRest (fuel : Nat) (env : AddEnv) (c : Collection) (p : DPath) (content : List Char) :
    Option (Bool × Collection × Nat) :=
  match chunk_text fuel content 500 50 with
  | none => none
  | some chunks =>
    match env.transcriber with
    | none =>
      if env.upsertRaises then some (false, c, 0)
      else some (true, colUpsert c (chunkEntries p p.absStr (env.md5 content) env.now chunks none), 0)
    | some embed =>
      if env.upsertRaises then some (false, c, (embedLoop embed chunks).2)
      else
        some (true,
          colUpsert c (chunkEntries p p.absStr (env.md5 content) env.now chunks
            (match (embedLoop embed chunks).1 with
             | some (v :: vs) => some (v :: vs)
             | _ => none)),
          (embedLoop embed chunks).2)

/-- `VectorStoreManager.add_transcript(transcript_path, transcriber)`.
The result is `(returned bool, collection afterwards, number of
embedding-provider calls performed)`; `none` means the call never
returns because `chunk_text` loops beyond `fuel` iterations. -/
def add_transcript (fuel : Nat) (env : AddEnv) (c : Collection) (p : DPath) :
    Option (Bool × Collection × Nat) :=
  if env.fileExists = false then some (false, c, 0)
  else
    match env.readResult with
    | .error _ => some (false, c, 0)
    | .ok raw =>
      if pyStrip raw = [] then some (false, c, 0)
      else
        if env.getRaises then some (false, c, 0)
        else
          match colGet c [p.absStr] with
          | (_, e0) :: _ =>
            if e0.metadata.content_hash = env.md5 (pyStrip raw) then some (true, c, 0)
            else addRest fuel env c p (pyStrip raw)
          | [] => addRest fuel env c p (pyStrip raw)

/-- The environment of one `remove_transcript` call: raise-flags for the
two store calls it performs. -/
structure RemoveEnv where
  whereRaises : Bool
  deleteRaises : Bool
deriving DecidableEq

/-- `VectorStoreManager.remove_transcript(transcript_path)`. Returns the
boolean result and the collection afterwards. -/
def remove_transcript (env : RemoveEnv) (c : Collection) (p : DPath) : Bool × Collection :=
  if env.whereRaises then (false, c)
  else
    if colWhereSourceFile c p.str = [] then (false, c)
    else if env.deleteRaises then (false, c)
    else (true, colDelete c (colWhereSourceFile c p.str))

/-- What `collection.query(...)` hands back (chroma's `QueryResult`):
per-query lists of ids, documents and metadatas, and the distances field,
which is `none` when absent (`None`). -/
structure QueryReply where
  ids : List (List String)
  documents : List (List (List Char))
  metadatas : List (List Metadata)
  distances : Option (List (List ℚ))

/-- One element of the list returned by `search_similar` (source lines
226-232). -/
structure SearchResult where
  id : String
  content : List Char
  metadata : Metadata
  similarity : ℚ
  distance : ℚ
deriving DecidableEq

/-- `results['distances'][0][i] if results['distances'] else 0`:
a falsy distances field (absent / `None` or the empty list) yields 0;
a truthy one is indexed, `none` meaning an `IndexError` is raised. -/
def distAt (dists : Option (List (List ℚ))) (i : Nat) : Option ℚ :=
  match dists with
  | none => some 0
  | some [] => some 0
  | some (d0 :: _) => d0[i]?

/-- The result-building loop of `search_similar` (source lines 220-233),
iterating over `results['ids'][0]` with running index `i`. A `none`
result models an exception raised inside the loop (caught by the
enclosing `except`, discarding everything built so far). -/
def buildLoop (qr : QueryReply) (th : ℚ) : List String → Nat → Option (List SearchResult)
  | [], _ => some []
  | docId :: rest, i =>
    match distAt qr.distances i with
    | none => none
    | some d =>
      if th ≤ 1 - d then
        match (qr.documents[0]?).bind (fun l => l[i]?) with
        | none => none
        | some doc =>
          match (qr.metadatas[0]?).bind (fun l => l[i]?) with
          | none => none
          | some m =>
            match buildLoop qr th rest (i + 1) with
            | none => none
            | some tail =>
              some ({ id := docId, content := doc, metadata := m,
                      similarity := 1 - d, distance := d } :: tail)
      else buildLoop qr th rest (i + 1)

/-- The whole post-query body of `search_similar`, guarded by
`if results['ids'] and results['ids'][0]`. -/
def processResults (qr : QueryReply) (th : ℚ) : Option (List SearchResult) :=
  match qr.ids with
  | [] => some []
  | ids0 :: _ => if ids0 = [] then some [] else buildLoop qr th ids0 0

/-- `VectorStoreManager.search_similar`, from the underlying query
outcome on: a raised query (`error`) or any exception inside the result
loop yields the empty list (source lines 237-239). -/
def search_similar (qres : Except Unit QueryReply) (th : ℚ) : List SearchResult :=
  match qres with
  | .error _ => []
  | .ok qr =>
    match processResults qr th with
    | some rs => rs
    | none => []

/-- A transcript path used by the concrete scenarios below. -/
def samplePath : DPath :=
  { str := "recordings/t.txt", name := "t.txt", absStr := "/abs/recordings/t.txt" }

/-- Environment for a readable one-chunk file with a working embedding
provider. -/
def sampleEnv : AddEnv :=
  { fileExists := true, readResult := .ok "hello world".toList,
    transcriber := some (fun _ => .ok [1]),
    getRaises := false, upsertRaises := false, now := "2025-01-01", md5 := fun s => s }

/-- The pathological input for the chunker's default parameters:
51 `a`s, one space, 501 `b`s (length 553). -/
def loopText : List Char := List.replicate 51 'a' ++ ' ' :: List.replicate 501 'b'

/-- Environment reading 501 `a`s (chunks into two pieces at the default
parameters), without an embedding provider. -/
def longEnv : AddEnv :=
  { fileExists := true, readResult := .ok (List.replicate 501 'a'), transcriber := none,
    getRaises := false, upsertRaises := false, now := "d1", md5 := fun s => s }

/-- Environment re-reading the same file after it shrank to the single
character `b` (chunks into one piece). -/
def shortEnv : AddEnv :=
  { fileExists := true, readResult := .ok ['b'], transcriber := none,
    getRaises := false, upsertRaises := false, now := "d2", md5 := fun s => s }

/-- Collection after adding the 501-`a` transcript to an empty store. -/
def storeAfterLong : Collection :=
  ((add_transcript 9 longEnv [] samplePath).map (fun r => r.2.1)).getD []

/-- Collection after then re-adding the shrunk (`b`) transcript. -/
def storeAfterShrink : Collection :=
  ((add_transcript 9 shortEnv storeAfterLong samplePath).map (fun r => r.2.1)).getD []

/-- Environment whose embedding provider raises on every call, with all
other capabilities healthy. -/
def embedFailEnv : AddEnv :=
  { fileExists := true, readResult := .ok "hi".toList,
    transcriber := some (fun _ => .error ()),
    getRaises := false, upsertRaises := false, now := "d", md5 := fun s => s }

/-- Environment for a missing transcript file. -/
def noFileEnv : AddEnv :=
  { fileExists := false, readResult := .error (), transcriber := none,
    getRaises := false, upsertRaises := false, now := "d", md5 := fun s => s }

/-- A sample chunk metadata record for concrete search scenarios. -/
def sampleMeta : Metadata :=
  { source_file := "recordings/t.txt", file_name := "t.txt", chunk_index := 0, total_chunks := 1,
    content_hash := ['h'], added_date := "d", chunk_length := 2 }

/-- A query reply with two neighbors at ascending distances 0 and 1/2. -/
def sampleReply : QueryReply :=
  { ids := [["a", "b"]], documents := [[['x'], ['y']]], metadatas := [[sampleMeta, sampleMeta]],
    distances := some [[0, 1/2]] }

/-- The same reply with the distances field absent (`None`). -/
def noDistReply : QueryReply :=
  { ids := [["a", "b"]], documents := [[['x'], ['y']]], metadatas := [[sampleMeta, sampleMeta]],
    distances := none }

/-- The first search result produced from either reply above. -/
def sampleR0 : SearchResult :=
  { id := "a", content := ['x'], metadata := sampleMeta, similarity := 1, distance := 0 }

/-- A stored entry whose `source_file` is `samplePath.str`. -/
def sampleEntry : Entry :=
  { document := ['h'], metadata := sampleMeta, embedding := none }

/-! ### Helper lemmas about `pyStrip` -/

theorem dropWhile_rdropWhile_eq_self {α : Type} (p : α → Bool) (x : List α)
    (hx : List.dropWhile p x = x) :
    List.dropWhile p (List.rdropWhile p x) = List.rdropWhile p x := by
  rw [List.dropWhile_eq_self_iff]
  intro hl
  obtain ⟨t, ht⟩ := List.rdropWhile_prefix p x
  have hx0 : 0 < x.length := by
    rw [← ht, List.length_append]
    omega
  have h0 : (List.rdropWhile p x)[0]? = x[0]? := by
    conv_rhs => rw [← ht]
    exact (List.getElem?_append_left hl).symm
  rw [List.getElem?_eq_getElem hl, List.getElem?_eq_getElem hx0] at h0
  have hhead : (List.rdropWhile p x).get ⟨0, hl⟩ = x.get ⟨0, hx0⟩ := by
    simp only [List.get_eq_getElem]
    exact Option.some.inj h0
  rw [hhead]
  exact List.dropWhile_eq_self_iff.mp hx hx0

theorem pyStrip_idempotent (l : List Char) : pyStrip (pyStrip l) = pyStrip l := by
  unfold pyStrip
  rw [dropWhile_rdropWhile_eq_self pyIsSpace (List.dropWhile pyIsSpace l)
      (List.dropWhile_idempotent pyIsSpace l),
    List.rdropWhile_idempotent]

/-- Invariant of the chunk-collecting loop: every emitted chunk is
nonempty and already stripped. -/
theorem chunkLoop_chunks_stripped (cs : List Char) (chunk_size chunk_overlap : Nat) :
    ∀ fuel start chunks res,
      (∀ c ∈ chunks, c ≠ [] ∧ pyStrip c = c) →
      chunkLoop cs chunk_size chunk_overlap fuel start chunks = some res →
      ∀ c ∈ res, c ≠ [] ∧ pyStrip c = c := by
  intro fuel
  induction fuel with
  | zero =>
    intro start chunks res hinv h
    simp [chunkLoop] at h
  | succ n ih =>
    intro start chunks res hinv h
    simp only [chunkLoop] at h
    by_cases hs : start < cs.length
    · rw [if_pos hs] at h
      refine ih _ _ _ ?_ h
      by_cases hck : pyStrip ((cs.drop start).take (chunkEnd cs chunk_size start - start)) = []
      · rwa [if_pos hck]
      · rw [if_neg hck]
        intro c hc
        rcases List.mem_append.mp hc with hc | hc
        · exact hinv c hc
        · rcases List.mem_singleton.mp hc with rfl
          exact ⟨hck, pyStrip_idempotent _⟩
    · rw [if_neg hs] at h
      cases h
      exact hinv

/-! ### C5 -/

/-- C5: for every string with `len(s) ≤ chunk_size`, `chunk_text`
returns exactly the one-element list `[s]`, untouched: no trimming,
word-boundary snapping or overlap logic is applied. -/
theorem chunk_text_short_input_identity (fuel : Nat) (text : List Char)
    (chunk_size chunk_overlap : Nat) (h : text.length ≤ chunk_size) :
    chunk_text fuel text chunk_size chunk_overlap = some [text] := by
  simp [chunk_text, h]

theorem chunk_text_short_input_identity_witness :
    ([' ', 'h', 'i'] : List Char).length ≤ 500 ∧
      chunk_text 0 [' ', 'h', 'i'] 500 50 = some [[' ', 'h', 'i']] :=
  ⟨by decide, chunk_text_short_input_identity 0 [' ', 'h', 'i'] 500 50 (by decide)⟩

/-! ### C4 -/

/-- C4 counterexample: on a whitespace-only input the `len(text) <=
chunk_size` branch returns `[text]` unchanged, so `chunk_text` returns a
chunk that is empty after trimming, contradicting the claim for empty
and whitespace-only strings. -/
theorem chunk_text_short_branch_empty_chunk :
    chunk_text 0 [' '] 500 50 = some [[' ']] ∧ pyStrip [' '] = [] := ⟨rfl, rfl⟩

/-- C4 (amended): for every input longer than `chunk_size` — i.e.
whenever the chunking loop runs — every returned chunk is non-empty
after trimming; an empty-after-trimming window is skipped. (The claim
as stated fails only on the short-input branch, which returns the input
untrimmed even when it is empty or whitespace-only.) -/
theorem chunk_text_no_empty_chunk (fuel : Nat) (text : List Char)
    (chunk_size chunk_overlap : Nat) (hlong : chunk_size < text.length)
    (res : List (List Char))
    (hres : chunk_text fuel text chunk_size chunk_overlap = some res) :
    ∀ c ∈ res, pyStrip c ≠ [] := by
  intro c hc
  have h2 : ∀ c ∈ res, c ≠ [] ∧ pyStrip c = c := by
    refine chunkLoop_chunks_stripped text chunk_size chunk_overlap fuel 0 [] res (by simp) ?_
    rw [chunk_text, if_neg (by omega)] at hres
    exact hres
  have hcc := h2 c hc
  rw [hcc.2]
  exact hcc.1

theorem chunk_text_no_empty_chunk_witness :
    chunk_text 9 ['a', 'b', 'c'] 2 1 = some [['a', 'b'], ['b', 'c'], ['c']] ∧
      pyStrip ['c'] ≠ ([] : List Char) :=
  ⟨by decide,
    chunk_text_no_empty_chunk 9 ['a', 'b', 'c'] 2 1 (by decide)
      [['a', 'b'], ['b', 'c'], ['c']] (by decide) ['c'] (by decide)⟩

/-! ### C2 -/

/-- On `loopText` with the default parameters the loop state `start = 1`
reproduces itself: the window `[1, 501)` snaps back to the space at
index 51, and `51 - 50 = 1` again. So no amount of fuel finishes. -/
theorem chunkLoop_stuck : ∀ fuel chunks, chunkLoop loopText 500 50 fuel 1 chunks = none
  | 0, _ => rfl
  | fuel + 1, chunks => by
    have hstep : chunkLoop loopText 500 50 (fuel + 1) 1 chunks
        = chunkLoop loopText 500 50 fuel 1 (chunks ++ [List.replicate 50 'a']) := rfl
    rw [hstep]
    exact chunkLoop_stuck fuel (chunks ++ [List.replicate 50 'a'])

/-- C2: the chunking loop does not terminate on every input, even at
the default parameters `chunk_size = 500`, `chunk_overlap = 50`: on
`loopText` (51 `a`s, a space, 501 `b`s) the guard `start <= 0` never
fires while `start = end - overlap` cycles at `1`, so the `while` loop
never exits — no fuel bound makes `chunk_text` return. -/
theorem chunk_text_divergence_default_params (fuel : Nat) :
    chunk_text fuel loopText 500 50 = none := by
  cases fuel with
  | zero => rfl
  | succ n =>
    have h : chunk_text (n + 1) loopText 500 50
        = chunkLoop loopText 500 50 n 1 [List.replicate 51 'a'] := rfl
    rw [h]
    exact chunkLoop_stuck n [List.replicate 51 'a']

/-! ### C1 -/

/-- C1: the change-detection short-circuit never fires, because chunks
are stored under ids `file_id_0`, `file_id_1`, … while the check fetches
the plain id `file_id`, which is never stored. Adding the same file with
unchanged content twice therefore performs its embedding-provider calls
again on the second call (1 call here, not 0) and re-upserts, instead of
short-circuiting: the fetch for `samplePath.absStr` finds nothing even
though chunk `…_0` is stored. -/
theorem add_transcript_second_add_reembeds :
    ((add_transcript 9 sampleEnv [] samplePath).bind (fun r =>
        (add_transcript 9 sampleEnv r.2.1 samplePath).map (fun r2 => (r2.1, r2.2.2))))
      = some (true, 1) ∧
    (add_transcript 9 sampleEnv [] samplePath).map
        (fun r => (colGet r.2.1 [samplePath.absStr], colWhereSourceFile r.2.1 samplePath.str))
      = some ([], ["/abs/recordings/t.txt_0"]) := ⟨rfl, rfl⟩

/-! ### C3 -/

/-- C3: re-adding a file whose new content chunks into fewer chunks than
before leaves the stale trailing chunk in place with its old hash: after
adding 501 `a`s (2 chunks) and re-adding content `b` (1 chunk), the two
chunks stored for the source file carry different `content_hash` values,
violating the transcript-record invariant. -/
theorem transcript_invariant_violated_on_shrink :
    hashesFor storeAfterShrink samplePath.str = [['b'], List.replicate 501 'a'] ∧
    (['b'] : List Char) ≠ List.replicate 501 'a' ∧
    colWhereSourceFile storeAfterShrink samplePath.str
      = ["/abs/recordings/t.txt_0", "/abs/recordings/t.txt_1"] := ⟨rfl, by decide, rfl⟩

/-! ### Helper lemmas about the collection -/

theorem colWhereSourceFile_eq_nil_iff (c : Collection) (s : String) :
    colWhereSourceFile c s = [] ↔ ∀ pr ∈ c, pr.2.metadata.source_file ≠ s := by
  unfold colWhereSourceFile
  rw [List.map_eq_nil_iff, List.filter_eq_nil_iff]
  simp

theorem colWhereSourceFile_delete_self (c : Collection) (s : String) :
    colWhereSourceFile (colDelete c (colWhereSourceFile c s)) s = [] := by
  rw [colWhereSourceFile_eq_nil_iff]
  intro pr hpr hsrc
  unfold colDelete at hpr
  rw [List.mem_filter] at hpr
  have h1 : pr.1 ∈ colWhereSourceFile c s := by
    unfold colWhereSourceFile
    exact List.mem_map.mpr ⟨pr, List.mem_filter.mpr ⟨hpr.1, by simpa using hsrc⟩, rfl⟩
  have h2 := hpr.2
  simp only [decide_eq_true_eq] at h2
  exact h2 h1

/-! ### C8 -/

/-- C8: with healthy store calls, `remove_transcript` returns true iff
at least one stored chunk's `source_file` metadata equals the given path
string exactly; after a call returning true the filtered get for that
source file returns zero ids; when nothing matches it returns false and
leaves the store unchanged. -/
theorem remove_transcript_correct (c : Collection) (p : DPath) :
    ((remove_transcript ⟨false, false⟩ c p).1 = true ↔
      ∃ pr ∈ c, pr.2.metadata.source_file = p.str) ∧
    ((remove_transcript ⟨false, false⟩ c p).1 = true →
      colWhereSourceFile (remove_transcript ⟨false, false⟩ c p).2 p.str = []) ∧
    ((remove_transcript ⟨false, false⟩ c p).1 = false →
      (remove_transcript ⟨false, false⟩ c p).2 = c) := by
  by_cases hw : colWhereSourceFile c p.str = []
  · have hr : remove_transcript ⟨false, false⟩ c p = (false, c) := by
      simp [remove_transcript, hw]
    rw [hr]
    refine ⟨⟨fun h => Bool.noConfusion h, ?_⟩, fun h => Bool.noConfusion h, fun _ => rfl⟩
    rintro ⟨pr, hpr, hsrc⟩
    exact absurd hsrc ((colWhereSourceFile_eq_nil_iff c p.str).mp hw pr hpr)
  · have hr : remove_transcript ⟨false, false⟩ c p
        = (true, colDelete c (colWhereSourceFile c p.str)) := by
      simp [remove_transcript, hw]
    rw [hr]
    refine ⟨⟨fun _ => ?_, fun _ => rfl⟩, fun _ => colWhereSourceFile_delete_self c p.str,
      fun h => Bool.noConfusion h⟩
    by_contra hne
    push_neg at hne
    exact hw ((colWhereSourceFile_eq_nil_iff c p.str).mpr hne)

theorem remove_transcript_correct_witness :
    (remove_transcript ⟨false, false⟩ [("id0", sampleEntry)] samplePath).1 = true ∧
    colWhereSourceFile (remove_transcript ⟨false, false⟩ [("id0", sampleEntry)] samplePath).2
      samplePath.str = [] := by
  have hmem : ∃ pr ∈ [("id0", sampleEntry)], pr.2.metadata.source_file = samplePath.str :=
    ⟨("id0", sampleEntry), by simp, rfl⟩
  exact ⟨(remove_transcript_correct [("id0", sampleEntry)] samplePath).1.mpr hmem,
    (remove_transcript_correct [("id0", sampleEntry)] samplePath).2.1
      ((remove_transcript_correct [("id0", sampleEntry)] samplePath).1.mpr hmem)⟩

/-! ### C9 -/

/-- C9 counterexample: a failure of the embedding capability does not
make `add_transcript` return false — the exception is caught inside the
call, which falls back to an unembedded upsert and returns true (after
one failed provider call). -/
theorem add_transcript_embed_failure_true :
    (add_transcript 9 embedFailEnv [] samplePath).map (fun r => (r.1, r.2.2))
      = some (true, 1) := rfl

/-- C9 (amended): no operation propagates an exception. A missing file,
a raising file read, empty-after-trimming content, or a raising store
call makes `add_transcript` return false (collection unchanged) and
`remove_transcript` return false; a raised search query makes
`search_similar` return the empty list. An embedding-capability failure,
however, is caught and degrades `add_transcript` to an unembedded upsert
that returns true. -/
theorem fail_soft_policy (fuel : Nat) (env : AddEnv) (c : Collection) (p : DPath)
    (renv : RemoveEnv) (th : ℚ) :
    (env.fileExists = false → add_transcript fuel env c p = some (false, c, 0)) ∧
    (env.readResult = .error () → add_transcript fuel env c p = some (false, c, 0)) ∧
    (∀ raw, env.readResult = .ok raw → pyStrip raw = [] →
      add_transcript fuel env c p = some (false, c, 0)) ∧
    (env.getRaises = true → add_transcript fuel env c p = some (false, c, 0)) ∧
    (env.upsertRaises = true → colGet c [p.absStr] = [] →
      ∀ r, add_transcript fuel env c p = some r → r.1 = false ∧ r.2.1 = c) ∧
    (env.fileExists = true → ∀ raw, env.readResult = .ok raw → pyStrip raw ≠ [] →
      env.getRaises = false → env.upsertRaises = false →
      ∀ f, env.transcriber = some f → (∀ s, f s = .error ()) →
      ∀ r, add_transcript fuel env c p = some r → r.1 = true) ∧
    (renv.whereRaises = true → remove_transcript renv c p = (false, c)) ∧
    (renv.deleteRaises = true → remove_transcript renv c p = (false, c)) ∧
    search_similar (.error ()) th = [] := by
  refine ⟨?_, ?_, ?_, ?_, ?_, ?_, ?_, ?_, rfl⟩
  · intro h
    simp [add_transcript, h]
  · intro h
    by_cases hf : env.fileExists = false
    · simp [add_transcript, hf]
    · simp [add_transcript, hf, h]
  · intro raw h hstrip
    by_cases hf : env.fileExists = false
    · simp [add_transcript, hf]
    · simp [add_transcript, hf, h, hstrip]
  · intro h
    by_cases hf : env.fileExists = false
    · simp [add_transcript, hf]
    · cases hq : env.readResult with
      | error e => simp [add_transcript, hf, hq]
      | ok raw =>
        by_cases hstrip : pyStrip raw = []
        · simp [add_transcript, hf, hq, hstrip]
        · simp [add_transcript, hf, hq, hstrip, h]
  · intro hup hget r hr
    unfold add_transcript at hr
    split at hr
    · cases hr; exact ⟨rfl, rfl⟩
    · split at hr
      · cases hr; exact ⟨rfl, rfl⟩
      · split at hr
        · cases hr; exact ⟨rfl, rfl⟩
        · split at hr
          · cases hr; exact ⟨rfl, rfl⟩
          · split at hr
            · rename_i heq
              rw [hget] at heq
              exact List.noConfusion heq
            · unfold addRest at hr
              split at hr
              · exact Option.noConfusion hr
              · split at hr
                · rw [if_pos hup] at hr
                  cases hr; exact ⟨rfl, rfl⟩
                · rw [if_pos hup] at hr
                  cases hr; exact ⟨rfl, rfl⟩
  · intro hf raw hraw hstrip hget0 hup0 f htr hferr r hr
    unfold add_transcript at hr
    split at hr
    · rename_i heq
      rw [hf] at heq
      exact Bool.noConfusion heq
    · split at hr
      · rename_i e heq
        rw [hraw] at heq
        exact Except.noConfusion heq
      · rename_i raw2 heq
        rw [hraw] at heq
        injection heq with heq2
        subst heq2
        split at hr
        · rename_i hstrip2
          exact absurd hstrip2 hstrip
        · split at hr
          · rename_i hg
            rw [hget0] at hg
            exact Bool.noConfusion hg
          · have haddRest : ∀ hr2 : addRest fuel env c p (pyStrip raw) = some r, r.1 = true := by
              intro hr2
              unfold addRest at hr2
              split at hr2
              · exact Option.noConfusion hr2
              · split at hr2
                · rename_i htrn
                  rw [htr] at htrn
                  exact Option.noConfusion htrn
                · rename_i embed htrs
                  rw [if_neg (by simp [hup0])] at hr2
                  cases hr2
                  rfl
            split at hr
            · split at hr
              · cases hr; rfl
              · exact haddRest hr
            · exact haddRest hr
  · intro h
    simp [remove_transcript, h]
  · intro h
    by_cases hwr : renv.whereRaises = true
    · simp [remove_transcript, hwr]
    · by_cases hcw : colWhereSourceFile c p.str = []
      · simp [remove_transcript, hwr, hcw]
      · simp [remove_transcript, hwr, hcw, h]

theorem fail_soft_policy_witness :
    add_transcript 3 noFileEnv [] samplePath = some (false, [], 0) ∧
    remove_transcript ⟨true, false⟩ [] samplePath = (false, []) ∧
    search_similar (.error ()) 0 = [] :=
  ⟨(fail_soft_policy 3 noFileEnv [] samplePath ⟨true, false⟩ 0).1 rfl,
   (fail_soft_policy 3 noFileEnv [] samplePath ⟨true, false⟩ 0).2.2.2.2.2.2.1 rfl,
   (fail_soft_policy 3 noFileEnv [] samplePath ⟨true, false⟩ 0).2.2.2.2.2.2.2.2⟩

/-! ### Helper lemmas about the search result loop -/

theorem buildLoop_mem (qr : QueryReply) (th : ℚ) :
    ∀ ids i rs, buildLoop qr th ids i = some rs →
      ∀ r ∈ rs, r.similarity = 1 - r.distance ∧ th ≤ r.similarity ∧
        ∃ j, i ≤ j ∧ distAt qr.distances j = some r.distance := by
  intro ids
  induction ids with
  | nil =>
    intro i rs h r hr
    injection h with h2
    subst h2
    simp at hr
  | cons docId rest ih =>
    intro i rs h r hr
    simp only [buildLoop] at h
    split at h
    · exact Option.noConfusion h
    · rename_i d hd
      split at h
      · rename_i hth
        split at h
        · exact Option.noConfusion h
        · split at h
          · exact Option.noConfusion h
          · split at h
            · exact Option.noConfusion h
            · rename_i tail htail
              injection h with h2
              subst h2
              rcases List.mem_cons.mp hr with rfl | hr2
              · exact ⟨rfl, hth, i, le_refl i, hd⟩
              · obtain ⟨h1, h2, j, hij, hj⟩ := ih (i + 1) tail htail r hr2
                exact ⟨h1, h2, j, by omega, hj⟩
      · obtain ⟨h1, h2, j, hij, hj⟩ := ih (i + 1) rs h r hr
        exact ⟨h1, h2, j, by omega, hj⟩

theorem buildLoop_length (qr : QueryReply) (th : ℚ) :
    ∀ ids i rs, buildLoop qr th ids i = some rs → rs.length ≤ ids.length := by
  intro ids
  induction ids with
  | nil =>
    intro i rs h
    injection h with h2
    subst h2
    simp
  | cons docId rest ih =>
    intro i rs h
    simp only [buildLoop] at h
    split at h
    · exact Option.noConfusion h
    · split at h
      · split at h
        · exact Option.noConfusion h
        · split at h
          · exact Option.noConfusion h
          · split at h
            · exact Option.noConfusion h
            · rename_i tail htail
              injection h with h2
              subst h2
              simpa using Nat.succ_le_succ (ih (i + 1) tail htail)
      · exact le_trans (ih (i + 1) rs h) (by simp)

theorem buildLoop_sorted (qr : QueryReply) (th : ℚ)
    (hmono : ∀ i j di dj, i ≤ j → distAt qr.distances i = some di →
      distAt qr.distances j = some dj → di ≤ dj) :
    ∀ ids i rs, buildLoop qr th ids i = some rs →
      List.Pairwise (fun a b => a.distance ≤ b.distance) rs := by
  intro ids
  induction ids with
  | nil =>
    intro i rs h
    injection h with h2
    subst h2
    exact List.Pairwise.nil
  | cons docId rest ih =>
    intro i rs h
    simp only [buildLoop] at h
    split at h
    · exact Option.noConfusion h
    · rename_i d hd
      split at h
      · split at h
        · exact Option.noConfusion h
        · split at h
          · exact Option.noConfusion h
          · split at h
            · exact Option.noConfusion h
            · rename_i tail htail
              injection h with h2
              subst h2
              refine List.Pairwise.cons ?_ (ih (i + 1) tail htail)
              intro b hb
              obtain ⟨_, _, j, hij, hj⟩ := buildLoop_mem qr th rest (i + 1) tail htail b hb
              exact hmono i j d b.distance (by omega) hd hj
      · exact ih (i + 1) rs h

theorem buildLoop_full (qr : QueryReply) (th : ℚ)
    (h0 : ∀ i, distAt qr.distances i = some 0) (hth : th ≤ 1) :
    ∀ ids i rs, buildLoop qr th ids i = some rs → rs.length = ids.length := by
  intro ids
  induction ids with
  | nil =>
    intro i rs h
    injection h with h2
    subst h2
    rfl
  | cons docId rest ih =>
    intro i rs h
    simp only [buildLoop] at h
    split at h
    · exact Option.noConfusion h
    · rename_i d hd
      rw [h0 i] at hd
      injection hd with hd2
      subst hd2
      split at h
      · split at h
        · exact Option.noConfusion h
        · split at h
          · exact Option.noConfusion h
          · split at h
            · exact Option.noConfusion h
            · rename_i tail htail
              injection h with h2
              subst h2
              simpa using ih (i + 1) tail htail
      · rename_i hthn
        norm_num at hthn
        exact absurd hth (not_le.mpr hthn)

theorem distAt_mono (D : Option (List (List ℚ)))
    (hs : ∀ d0 rest, D = some (d0 :: rest) → List.Pairwise (fun a b => a ≤ b) d0) :
    ∀ i j di dj, i ≤ j → distAt D i = some di → distAt D j = some dj → di ≤ dj := by
  intro i j di dj hij hi hj
  rcases hD : D with _ | l
  · rw [hD] at hi hj
    simp only [distAt] at hi hj
    injection hi with hi2
    injection hj with hj2
    rw [← hi2, ← hj2]
  · rcases l with _ | ⟨d0, drest⟩
    · rw [hD] at hi hj
      simp only [distAt] at hi hj
      injection hi with hi2
      injection hj with hj2
      rw [← hi2, ← hj2]
    · rw [hD] at hi hj
      simp only [distAt] at hi hj
      have hsor := hs d0 drest hD
      rcases Nat.lt_or_ge i j with hlt | hge
      · obtain ⟨hi0, hieq⟩ := List.getElem?_eq_some_iff.mp hi
        obtain ⟨hj0, hjeq⟩ := List.getElem?_eq_some_iff.mp hj
        have hp := List.pairwise_iff_getElem.mp hsor i j hi0 hj0 hlt
        rw [hieq, hjeq] at hp
        exact hp
      · have hij2 : i = j := le_antisymm hij hge
        subst hij2
        rw [hi] at hj
        injection hj with hj2
        rw [hj2]

/-- Case analysis for `search_similar` on a successful query: the result
is either empty or exactly what `buildLoop` produced on the first id
list. -/
theorem search_similar_ok_cases (qr : QueryReply) (th : ℚ) :
    search_similar (.ok qr) th = [] ∨
    ∃ ids0 tl, qr.ids = ids0 :: tl ∧
      buildLoop qr th ids0 0 = some (search_similar (.ok qr) th) := by
  cases hq : qr.ids with
  | nil =>
    left
    simp [search_similar, processResults, hq]
  | cons ids0 tl =>
    by_cases h0 : ids0 = []
    · left
      simp [search_similar, processResults, hq, h0]
    · cases hb : buildLoop qr th ids0 0 with
      | none =>
        left
        simp [search_similar, processResults, hq, h0, hb]
      | some rs =>
        right
        refine ⟨ids0, tl, rfl, ?_⟩
        rw [hb]
        congr 1
        simp [search_similar, processResults, hq, h0, hb]

/-- Every member of a successful search satisfies the per-result
similarity, threshold and reported-distance properties. -/
theorem search_similar_ok_spec (qr : QueryReply) (th : ℚ) (r : SearchResult)
    (hr : r ∈ search_similar (.ok qr) th) :
    r.similarity = 1 - r.distance ∧ th ≤ r.similarity ∧
    ∃ j, distAt qr.distances j = some r.distance := by
  rcases search_similar_ok_cases qr th with h | ⟨ids0, tl, hq, hb⟩
  · rw [h] at hr
    simp at hr
  · obtain ⟨h1, h2, j, _, hj⟩ := buildLoop_mem qr th ids0 0 _ hb r hr
    exact ⟨h1, h2, j, hj⟩

/-! ### C6 -/

/-- C6: every result returned by `search_similar` carries
`similarity = 1.0 - distance` for the distance reported by the
underlying query for that neighbor, and no returned result has
similarity strictly below the threshold. -/
theorem search_similar_similarity_threshold (qr : QueryReply) (th : ℚ) (r : SearchResult)
    (hr : r ∈ search_similar (.ok qr) th) :
    r.similarity = 1 - r.distance ∧ th ≤ r.similarity ∧
    ∃ j, distAt qr.distances j = some r.distance :=
  search_similar_ok_spec qr th r hr

theorem search_similar_similarity_threshold_witness :
    sampleR0.similarity = 1 - sampleR0.distance ∧ (0 : ℚ) ≤ sampleR0.similarity ∧
    ∃ j, distAt sampleReply.distances j = some sampleR0.distance :=
  search_similar_similarity_threshold sampleReply 0 sampleR0 (by
    norm_num [search_similar, processResults, buildLoop, distAt, sampleReply, sampleR0]
    simp)

/-! ### C7 -/

/-- C7: `search_similar` returns at most as many results as the
underlying nearest-neighbor query returned ids (hence at most `k` when
the query honours `n_results = k`), and, assuming the query returns
neighbors in ascending distance order, the returned sequence is in
non-increasing similarity order without any re-sorting by the manager. -/
theorem search_similar_ordering (qr : QueryReply) (th : ℚ) (k : Nat)
    (hk : (qr.ids.head?.getD []).length ≤ k)
    (hsorted : ∀ d0 rest, qr.distances = some (d0 :: rest) →
      List.Pairwise (fun a b => a ≤ b) d0) :
    (search_similar (.ok qr) th).length ≤ k ∧
    List.Pairwise (fun a b => b.similarity ≤ a.similarity) (search_similar (.ok qr) th) := by
  have hmono := distAt_mono qr.distances hsorted
  rcases search_similar_ok_cases qr th with h | ⟨ids0, tl, hq, hb⟩
  · rw [h]
    exact ⟨Nat.zero_le k, List.Pairwise.nil⟩
  · constructor
    · have hlen := buildLoop_length qr th ids0 0 _ hb
      have hh : qr.ids.head?.getD [] = ids0 := by rw [hq]; rfl
      rw [hh] at hk
      exact le_trans hlen hk
    · have hpw := buildLoop_sorted qr th hmono ids0 0 _ hb
      refine List.Pairwise.imp_of_mem ?_ hpw
      intro a b ha hb2 hab
      have hA := (buildLoop_mem qr th ids0 0 _ hb a ha).1
      have hB := (buildLoop_mem qr th ids0 0 _ hb b hb2).1
      rw [hA, hB]
      linarith

theorem search_similar_ordering_witness :
    (search_similar (.ok sampleReply) 0).length ≤ 5 ∧
    List.Pairwise (fun a b => b.similarity ≤ a.similarity) (search_similar (.ok sampleReply) 0) :=
  search_similar_ordering sampleReply 0 5 (by decide)
    (by
      intro d0 rest h
      simp only [sampleReply] at h
      injection h with h2
      injection h2 with h3 h4
      subst h3
      subst h4
      norm_num [List.pairwise_cons])

/-! ### C10 -/

/-- C10: when the underlying query reply carries an absent (`None`) or
empty distances field, every neighbor is assigned distance 0, hence
similarity 1.0; with a threshold at most 1.0 every neighbor of the reply
is reported (none is filtered out). -/
theorem search_similar_missing_distances (qr : QueryReply) (th : ℚ)
    (hd : qr.distances = none ∨ qr.distances = some []) (hth : th ≤ 1) :
    (∀ r ∈ search_similar (.ok qr) th, r.distance = 0 ∧ r.similarity = 1) ∧
    (∀ rs, processResults qr th = some rs → rs.length = (qr.ids.head?.getD []).length) := by
  have h0 : ∀ i, distAt qr.distances i = some 0 := by
    intro i
    rcases hd with h | h <;> simp [distAt, h]
  constructor
  · intro r hr
    rcases search_similar_ok_cases qr th with h | ⟨ids0, tl, hq, hb⟩
    · rw [h] at hr
      simp at hr
    · obtain ⟨h1, _, j, _, hj⟩ := buildLoop_mem qr th ids0 0 _ hb r hr
      rw [h0 j] at hj
      injection hj with hj2
      exact ⟨hj2.symm, by rw [h1, ← hj2]; norm_num⟩
  · intro rs hrs
    unfold processResults at hrs
    split at hrs
    · rename_i heq
      injection hrs with h2
      subst h2
      rw [heq]
      rfl
    · rename_i ids0 tl heq
      split at hrs
      · rename_i h00
        injection hrs with h2
        subst h2
        rw [heq, h00]
        rfl
      · have := buildLoop_full qr th h0 hth ids0 0 rs hrs
        rw [this, heq]
        rfl

theorem search_similar_missing_distances_witness :
    sampleR0.distance = 0 ∧ sampleR0.similarity = 1 :=
  (search_similar_missing_distances noDistReply 0 (Or.inl rfl) (by norm_num)).1 sampleR0 (by
    norm_num [search_similar, processResults, buildLoop, distAt, noDistReply, sampleR0]
    simp)

end Dictate
